import Mathlib

/-!
Verification of the fetchr client-side session/data model.

This file gives a shallow embedding, in Lean 4, of the Pinia application
store of the fetchr repository (the tab/session lifecycle manager, the
send pipeline, the collection tree builder, the CRUD write-then-reload
protocol and the curl generator), together with theorems settling the
frozen claims about that code.

Modelling conventions:
- JavaScript asynchronous collaborator calls (the Tauri invoke bridge)
  are modelled as explicit parameters: a fetched record, a success flag
  consumed by a persistence oracle, an optional reload result (none
  models a rejected reload call, which the source catches internally),
  and a total interpolation function for the backend variable resolver.
- Nondeterministic identifiers produced by crypto.randomUUID and clock
  reads by Date.toISOString are passed in as parameters.
- JavaScript truthiness on optional strings (empty string is falsy) is
  modelled explicitly by jsTruthyS.
- The in-place mutation of shared header objects performed by the send
  pipeline (the spread copy of the headers array is shallow, so writing
  value through the copied array mutates the objects held by the stored
  draft) is modelled by writing the interpolated header list back into
  the active tab draft.
- String.toLowerCase and the global-regexp replace of the source are
  modelled by executable character-list functions, since the JavaScript
  originals act character by character on the underlying text.
-/

/-- JavaScript truthiness of an optional string: undefined / null and the
empty string are falsy. -/
def jsTruthyS : Option String → Bool
  | some s => s ≠ ""
  | none => false

/-- JavaScript template-literal rendering of an optional string: an
undefined value prints as the text undefined. -/
def jsStrOpt : Option String → String
  | some s => s
  | none => "undefined"

/-- ASCII lower-casing of a string, the behaviour of toLowerCase on the
ASCII header keys the source compares. -/
def lowerStr (s : String) : String :=
  String.mk (s.data.map Char.toLower)

/-- KeyValue from src types: one header (or query parameter) row. -/
structure KeyValue where
  key : String
  value : String
  enabled : Bool
deriving DecidableEq

/-- FormDataField from src types. -/
structure FormDataField where
  key : String
  value : String
  type : String
  enabled : Bool
  file_path : Option String
deriving DecidableEq

/-- AuthData from src types: all fields optional. -/
structure AuthData where
  username : Option String := none
  password : Option String := none
  token : Option String := none
  key : Option String := none
  value_field : Option String := none
deriving DecidableEq

/-- HttpRequest from src types: the editable draft of one tab. -/
structure HttpRequest where
  method : String
  url : String
  headers : List KeyValue
  body : String
  body_type : String
  auth_type : String
  auth_data : AuthData
  form_data : List FormDataField
deriving DecidableEq

/-- Cookie from src types. -/
structure Cookie where
  name : String
  value : String
  domain : Option String
  path : Option String
deriving DecidableEq

/-- HttpResponse from src types; numeric fields are modelled as Nat since
the core only copies them around. -/
structure HttpResponse where
  status : Nat
  status_text : String
  headers : List (String × String)
  body : String
  response_time : Nat
  size : Nat
  cookies : List Cookie
deriving DecidableEq

/-- Collection from src types: a tree entity, folder or leaf container. -/
structure Collection where
  id : String
  name : String
  parent_id : Option String
  is_folder : Bool
  created_at : String
deriving DecidableEq

/-- Request from src types: the persisted entity; headers and auth_data
are serialized JSON strings. -/
structure Request where
  id : String
  collection_id : String
  name : String
  method : String
  url : String
  headers : String
  body : String
  body_type : String
  auth_type : String
  auth_data : String
  created_at : String
  updated_at : String
deriving DecidableEq

/-- Environment from src types; the variables field is the serialized
JSON variable list. -/
structure Environment where
  id : String
  name : String
  «variables» : String
  is_active : Bool
  created_at : String
deriving DecidableEq

/-- EnvironmentVariable from src types. -/
structure EnvironmentVariable where
  key : String
  value : String
deriving DecidableEq

/-- History from src types: one history entry. -/
structure History where
  id : String
  method : String
  url : String
  status : Nat
  response_time : Nat
  created_at : String
deriving DecidableEq

/-- RequestTab from the store: one open editing session. -/
structure RequestTab where
  id : String
  name : String
  request : HttpRequest
  response : Option HttpResponse
  requestId : Option String
  isLoading : Bool
  isDirty : Bool
deriving DecidableEq

/-- The store state: the persisted-entity mirrors plus tab state.
The requests field mirrors the JavaScript Map from collection id to its
request list, as an insertion-ordered association list. -/
structure AppState where
  collections : List Collection
  requests : List (String × List Request)
  environments : List Environment
  activeEnvironment : Option Environment
  history : List History
  openTabs : List RequestTab
  activeTabIndex : Nat
deriving DecidableEq

/-- The default empty draft used by the initial tab, createNewTab and
resetCurrentRequest. -/
def defaultRequest : HttpRequest :=
  { method := "GET"
    url := ""
    headers := []
    body := ""
    body_type := "none"
    auth_type := "none"
    auth_data := {}
    form_data := [] }

/-- openTabs[activeTabIndex], the optional active tab. -/
def activeTab? (s : AppState) : Option RequestTab :=
  s.openTabs[s.activeTabIndex]?

/-- Modify the tab at an index in place; out-of-range indices leave the
list unchanged, mirroring the guarded property writes of the source. -/
def modifyTab (i : Nat) (f : RequestTab → RequestTab) (l : List RequestTab) : List RequestTab :=
  match l[i]? with
  | some t => l.set i (f t)
  | none => l

/-- The currentRequest computed getter: the active tab draft, or the
default draft when the index is out of range. -/
def currentRequestGet (s : AppState) : HttpRequest :=
  match activeTab? s with
  | some t => t.request
  | none => defaultRequest

/-- The currentRequest computed setter: replaces the active tab draft
and marks the tab dirty. -/
def setCurrentRequest (v : HttpRequest) (s : AppState) : AppState :=
  let f : RequestTab → RequestTab := fun t => { t with request := v, isDirty := true }
  { s with openTabs := modifyTab s.activeTabIndex f s.openTabs }

/-- The currentResponse computed setter. -/
def setCurrentResponse (v : Option HttpResponse) (s : AppState) : AppState :=
  let f : RequestTab → RequestTab := fun t => { t with response := v }
  { s with openTabs := modifyTab s.activeTabIndex f s.openTabs }

/-- The selectedRequestId computed setter. -/
def setSelectedRequestId (v : Option String) (s : AppState) : AppState :=
  let f : RequestTab → RequestTab := fun t => { t with requestId := v }
  { s with openTabs := modifyTab s.activeTabIndex f s.openTabs }

/-- The isLoading computed setter. -/
def setIsLoading (v : Bool) (s : AppState) : AppState :=
  let f : RequestTab → RequestTab := fun t => { t with isLoading := v }
  { s with openTabs := modifyTab s.activeTabIndex f s.openTabs }

/-- The selectedRequestId computed getter: the active tab binding, with
the or-null collapse of a falsy value. -/
def selectedRequestIdGet (s : AppState) : Option String :=
  match activeTab? s with
  | some t => if jsTruthyS t.requestId then t.requestId else none
  | none => none

/-- resetCurrentRequest from the store: resets the active draft to the
default (through the currentRequest setter, which also marks the tab
dirty), clears the response and the binding. -/
def resetCurrentRequest (s : AppState) : AppState :=
  setSelectedRequestId none (setCurrentResponse none (setCurrentRequest defaultRequest s))

/-- Hydration of a stored Request into an editable draft, as written in
loadRequest and createNewTab; the JSON parsers of the host are passed in
as total functions, and the or-default on the serialized fields mirrors
the source falsy fallback. -/
def hydrate (r : Request) (parseKV : String → List KeyValue) (parseAuth : String → AuthData) :
    HttpRequest :=
  { method := r.method
    url := r.url
    headers := parseKV (if r.headers = "" then "[]" else r.headers)
    body := r.body
    body_type := r.body_type
    auth_type := r.auth_type
    auth_data := parseAuth (if r.auth_data = "" then "\x7b\x7d" else r.auth_data)
    form_data := [] }

/-- createNewTab from the store: appends a tab (hydrated from a Request
when one is given, else default) and makes it active. The requestId
binding applies the or-null collapse of the source to the record id. -/
def createNewTab (name : String) (request : Option Request)
    (parseKV : String → List KeyValue) (parseAuth : String → AuthData)
    (newTabId : String) (s : AppState) : AppState :=
  let newTab : RequestTab :=
    { id := newTabId
      name := match request with
        | some r => r.name
        | none => name
      request := match request with
        | some r => hydrate r parseKV parseAuth
        | none => defaultRequest
      response := none
      requestId := match request with
        | some r => if r.id ≠ "" then some r.id else none
        | none => none
      isLoading := false
      isDirty := false }
  { s with openTabs := s.openTabs ++ [newTab], activeTabIndex := s.openTabs.length }

/-- closeTab from the store: the sole remaining tab is reset in place
(then renamed and un-dirtied); otherwise the tab is spliced out and the
active index re-targeted. -/
def closeTab (index : Nat) (s : AppState) : AppState :=
  if s.openTabs.length = 1 then
    let s₁ := resetCurrentRequest s
    let f : RequestTab → RequestTab := fun t => { t with name := "New Request", isDirty := false }
    { s₁ with openTabs := modifyTab 0 f s₁.openTabs }
  else
    let tabs := s.openTabs.eraseIdx index
    let ai :=
      if tabs.length ≤ s.activeTabIndex then tabs.length - 1
      else if index < s.activeTabIndex then s.activeTabIndex - 1
      else s.activeTabIndex
    { s with openTabs := tabs, activeTabIndex := ai }

/-- switchTab from the store: in-range indices become active. -/
def switchTab (index : Nat) (s : AppState) : AppState :=
  if index < s.openTabs.length then { s with activeTabIndex := index } else s

/-- updateTabName from the store. -/
def updateTabName (index : Nat) (name : String) (s : AppState) : AppState :=
  let f : RequestTab → RequestTab := fun t => { t with name := name }
  { s with openTabs := modifyTab index f s.openTabs }

/-- addHeader from the request builder component: a non-empty key pushes
a copy of the new header row into the active draft headers array. This
is a direct property mutation of the draft object returned by the
currentRequest getter, so it does not pass through the currentRequest
setter and does not touch isDirty. -/
def addHeader (newHeader : KeyValue) (s : AppState) : AppState :=
  if newHeader.key ≠ "" then
    let f : RequestTab → RequestTab :=
      fun t => { t with request := { t.request with headers := t.request.headers ++ [newHeader] } }
    { s with openTabs := modifyTab s.activeTabIndex f s.openTabs }
  else s

/-- The v-model url edit of the request builder: writes the url property
of the object returned by the currentRequest getter, again bypassing the
currentRequest setter, so isDirty is untouched. -/
def editUrl (u : String) (s : AppState) : AppState :=
  let f : RequestTab → RequestTab := fun t => { t with request := { t.request with url := u } }
  { s with openTabs := modifyTab s.activeTabIndex f s.openTabs }

/-- JavaScript Array.findIndex over the tab list, as an optional index
(the source compares the result against -1). -/
def findTabIdx (p : RequestTab → Bool) : List RequestTab → Option Nat
  | [] => none
  | t :: ts => if p t then some 0 else (findTabIdx p ts).map (· + 1)

/-- loadRequest from the store: the backend fetch result is passed in as
an optional Request (none models both an absent record and a rejected
call, which leave the state unchanged). If a tab is already bound to the
requested id it is activated; else a new tab is opened when requested,
or when the active tab is bound or dirty; otherwise the active tab is
hydrated in place, renamed and un-dirtied. -/
def loadRequest (id : String) (openInNewTab : Bool) (fetched : Option Request)
    (parseKV : String → List KeyValue) (parseAuth : String → AuthData)
    (newTabId : String) (s : AppState) : AppState :=
  match fetched with
  | none => s
  | some request =>
    match findTabIdx (fun t => t.requestId == some id) s.openTabs with
    | some existingTabIndex => { s with activeTabIndex := existingTabIndex }
    | none =>
      if openInNewTab || jsTruthyS ((activeTab? s).bind RequestTab.requestId)
          || (((activeTab? s).map RequestTab.isDirty).getD false) then
        createNewTab request.name (some request) parseKV parseAuth newTabId s
      else
        let s₁ := setSelectedRequestId (some id) s
        let s₂ := setCurrentRequest (hydrate request parseKV parseAuth) s₁
        let f : RequestTab → RequestTab := fun t => { t with name := request.name, isDirty := false }
        { s₂ with openTabs := modifyTab s₂.activeTabIndex f s₂.openTabs }

/-- The number of open tabs bound to a given saved request id. -/
def boundTabCount (id : String) (s : AppState) : Nat :=
  s.openTabs.countP (fun t => t.requestId == some id)

/-- loadHistory from the store: replace the history mirror with the
reload result; a rejected call (none) is caught and leaves it as is. -/
def loadHistory (res : Option (List History)) (s : AppState) : AppState :=
  match res with
  | some l => { s with history := l }
  | none => s

/-- addHistory from the store: submit one entry to the backend and, on
success, reload the history mirror; a rejected submission is caught and
skips the reload. -/
def addHistory (entry : History) (persistOk : History → Bool)
    (reload : Option (List History)) (s : AppState) : AppState :=
  if persistOk entry then loadHistory reload s else s

/-- Writing the interpolated header values back into the active draft:
the source copies the headers array with a shallow spread, so assigning
value through the copy mutates the very objects held by the stored
draft. -/
def setActiveDraftHeaders (hs : List KeyValue) (s : AppState) : AppState :=
  let f : RequestTab → RequestTab := fun t => { t with request := { t.request with headers := hs } }
  { s with openTabs := modifyTab s.activeTabIndex f s.openTabs }

/-- The observable outcome of one sendRequest action: the final state,
the request value handed to the HTTP collaborator, and the history
entries submitted to the backend history store. -/
structure SendOutcome where
  state : AppState
  dispatched : HttpRequest
  appendedHistory : List History
deriving DecidableEq

/-- sendRequest from the store. The backend variable resolver is passed
in as a total function, applied only when an environment is active; the
HTTP collaborator result is an optional response (none models a
rejected call, which is caught, re-thrown and appends no history). The
url and body are interpolated into locals, but the header loop writes
through the shared header objects of the stored draft. -/
def sendRequest (interp : String → String) (httpResult : Option HttpResponse)
    (histId now : String) (histOk : History → Bool) (histReload : Option (List History))
    (s : AppState) : SendOutcome :=
  let s₁ := setCurrentResponse none (setIsLoading true s)
  let url := if s₁.activeEnvironment.isSome then interp (currentRequestGet s₁).url
             else (currentRequestGet s₁).url
  let headers := if s₁.activeEnvironment.isSome then
      (currentRequestGet s₁).headers.map (fun h => { h with value := interp h.value })
    else (currentRequestGet s₁).headers
  let s₂ := if s₁.activeEnvironment.isSome then setActiveDraftHeaders headers s₁ else s₁
  let body := if s₂.activeEnvironment.isSome ∧ (currentRequestGet s₂).body ≠ "" then
      interp (currentRequestGet s₂).body else (currentRequestGet s₂).body
  let requestToSend : HttpRequest :=
    { currentRequestGet s₂ with url := url, headers := headers, body := body }
  match httpResult with
  | none =>
    { state := setIsLoading false s₂, dispatched := requestToSend, appendedHistory := [] }
  | some response =>
    let s₃ := setCurrentResponse (some response) s₂
    let entry : History :=
      { id := histId, method := (currentRequestGet s₃).method, url := (currentRequestGet s₃).url,
        status := response.status, response_time := response.response_time, created_at := now }
    let s₄ := addHistory entry histOk histReload s₃
    { state := setIsLoading false s₄, dispatched := requestToSend, appendedHistory := [entry] }

/-- Map.get on the per-collection request mirror, with the or-empty
fallback the tree builder uses. -/
def lookupReqs (m : List (String × List Request)) (k : String) : List Request :=
  match m.find? (fun p => p.1 == k) with
  | some p => p.2
  | none => []

/-- Map.set on the per-collection request mirror: replace the entry for
the key when present, else append it. -/
def setReqs (k : String) (v : List Request) (m : List (String × List Request)) :
    List (String × List Request) :=
  if m.any (fun p => p.1 == k) then
    m.map (fun p => if p.1 == k then (k, v) else p)
  else m ++ [(k, v)]

/-- loadRequestsByCollection from the store: replace one collection's
request mirror with the reload result; a rejected call is caught and
leaves the mirror as is. -/
def loadRequestsByCollection (collectionId : String) (res : Option (List Request))
    (s : AppState) : AppState :=
  match res with
  | some l => { s with requests := setReqs collectionId l s.requests }
  | none => s

/-- loadCollections from the store: replace the collection mirror with
the reload result, then reload each collection's request list (each
inner call catches its own failure); a rejected collection fetch leaves
everything as is. -/
def loadCollections (res : Option (List Collection))
    (reqRes : String → Option (List Request)) (s : AppState) : AppState :=
  match res with
  | none => s
  | some cols =>
    cols.foldl (fun st c => loadRequestsByCollection c.id (reqRes c.id) st)
      { s with collections := cols }

/-- createCollection from the store: build the record, persist it, then
reload all collections (and their request lists); a rejected persist
call is caught and skips the reload. -/
def createCollection (name : String) (parentId : Option String) (isFolder : Bool)
    (newId now : String) (persist : Collection → Bool)
    (reloadCols : Option (List Collection)) (reloadReqs : String → Option (List Request))
    (s : AppState) : AppState :=
  let collection : Collection :=
    { id := newId, name := name, parent_id := parentId, is_folder := isFolder, created_at := now }
  if persist collection then loadCollections reloadCols reloadReqs s else s

/-- deleteCollection from the store: persist the deletion, then reload
all collections; a rejected call skips the reload. -/
def deleteCollection (id : String) (persist : String → Bool)
    (reloadCols : Option (List Collection)) (reloadReqs : String → Option (List Request))
    (s : AppState) : AppState :=
  if persist id then loadCollections reloadCols reloadReqs s else s

/-- saveCurrentRequest from the store: build the Request record from the
active draft (reusing the truthy bound id, else a fresh uuid), persist
it, reload the collection's request list, rebind the tab, rename it and
clear its dirty flag; a rejected persist call is caught and skips all of
that. The JSON serializers of the host are passed in as functions. -/
def saveCurrentRequest (name collectionId : String)
    (serKV : List KeyValue → String) (serAuth : AuthData → String)
    (newId now : String) (persist : Request → Bool)
    (reloadReqs : Option (List Request)) (s : AppState) : AppState :=
  let request : Request :=
    { id := match selectedRequestIdGet s with
        | some rid => rid
        | none => newId
      collection_id := collectionId
      name := name
      method := (currentRequestGet s).method
      url := (currentRequestGet s).url
      headers := serKV (currentRequestGet s).headers
      body := (currentRequestGet s).body
      body_type := (currentRequestGet s).body_type
      auth_type := (currentRequestGet s).auth_type
      auth_data := serAuth (currentRequestGet s).auth_data
      created_at := now
      updated_at := now }
  if persist request then
    let s₁ := loadRequestsByCollection collectionId reloadReqs s
    let s₂ := setSelectedRequestId (some request.id) s₁
    let f : RequestTab → RequestTab := fun t => { t with name := name, isDirty := false }
    { s₂ with openTabs := modifyTab s₂.activeTabIndex f s₂.openTabs }
  else s

/-- deleteRequest from the store: persist the deletion, reload the
collection's request list, and when the deleted id is the active tab's
binding, clear the binding and reset the draft; a rejected call skips
all of that. -/
def deleteRequest (id : String) (collectionId : String) (persist : String → Bool)
    (reloadReqs : Option (List Request)) (s : AppState) : AppState :=
  if persist id then
    let s₁ := loadRequestsByCollection collectionId reloadReqs s
    if selectedRequestIdGet s₁ == some id then
      resetCurrentRequest (setSelectedRequestId none s₁)
    else s₁
  else s

/-- loadEnvironments from the store: replace the environment mirror and
recompute the active one (the first with is_active); a rejected call
leaves both as is. -/
def loadEnvironments (res : Option (List Environment)) (s : AppState) : AppState :=
  match res with
  | some l => { s with environments := l, activeEnvironment := l.find? (fun e => e.is_active) }
  | none => s

/-- saveEnvironment from the store: build the record, persist it, then
reload all environments; a rejected persist call skips the reload. -/
def saveEnvironment (name : String) (vars : List EnvironmentVariable) (isActive : Bool)
    (serVars : List EnvironmentVariable → String) (newId now : String)
    (persist : Environment → Bool) (reloadEnvs : Option (List Environment))
    (s : AppState) : AppState :=
  let env : Environment :=
    { id := newId, name := name, «variables» := serVars vars,
      is_active := isActive, created_at := now }
  if persist env then loadEnvironments reloadEnvs s else s

/-- updateEnvironment from the store: look up the environment; when
found, persist the updated record and reload all environments; a
rejected persist call skips the reload. -/
def updateEnvironment (id name : String) (vars : List EnvironmentVariable)
    (serVars : List EnvironmentVariable → String)
    (persist : Environment → Bool) (reloadEnvs : Option (List Environment))
    (s : AppState) : AppState :=
  match s.environments.find? (fun e => e.id == id) with
  | some env =>
    let updated : Environment := { env with name := name, «variables» := serVars vars }
    if persist updated then loadEnvironments reloadEnvs s else s
  | none => s

/-- setActiveEnvironment from the store: look up the environment; when
found, persist it marked active and reload all environments; a rejected
persist call skips the reload. -/
def setActiveEnvironment (id : String) (persist : Environment → Bool)
    (reloadEnvs : Option (List Environment)) (s : AppState) : AppState :=
  match s.environments.find? (fun e => e.id == id) with
  | some env =>
    let updated : Environment := { env with is_active := true }
    if persist updated then loadEnvironments reloadEnvs s else s
  | none => s

/-- deleteEnvironment from the store: persist the deletion, then reload
all environments; a rejected call skips the reload. -/
def deleteEnvironment (id : String) (persist : String → Bool)
    (reloadEnvs : Option (List Environment)) (s : AppState) : AppState :=
  if persist id then loadEnvironments reloadEnvs s else s

/-- The payload of a rendered tree node: a Collection for folder nodes,
a Request for leaf nodes. -/
inductive NodeData where
  | coll (c : Collection)
  | req (r : Request)

/-- TreeNode from src types: the rendered tree; request leaves carry no
children array. -/
inductive TreeNode where
  | node (key label : String) (data : NodeData) (icon : Option String)
      (children : Option (List TreeNode)) (type : String)

/-- The parent filter of buildTree: strict equality of the node's
parent_id with the current parentId, or both falsy (the root sentinel;
an absent or empty-string parent_id is falsy in JavaScript, and strict
equality never holds between undefined and null). -/
def matchesParent (cpid p : Option String) : Bool :=
  (match cpid, p with
    | some a, some b => a = b
    | _, _ => false)
  || (!jsTruthyS cpid && !jsTruthyS p)

/-- A saved request rendered as a leaf node. -/
def requestLeaf (r : Request) : TreeNode :=
  TreeNode.node r.id r.name (NodeData.req r) (some "pi pi-file") none "request"

/-- A folder collection rendered as a container node. -/
def folderNode (f : Collection) (children : List TreeNode) : TreeNode :=
  TreeNode.node f.id f.name (NodeData.coll f) (some "pi pi-folder") (some children) "folder"

/-- buildTree from the collectionTree computed: at each level, folders
matching the parent are rendered first (children are the recursive
subtree followed by the folder's own requests as leaves), then each
matching non-folder collection is expanded into its owned requests as
leaves. The source recursion has no termination measure of its own (it
would diverge on a cyclic parent graph), so the embedding is indexed by
fuel; any fuel exceeding the actual tree depth yields the built tree. -/
def buildTree (cs : List Collection) (reqs : String → List Request) :
    Nat → Option String → List TreeNode
  | 0, _ => []
  | fuel + 1, parentId =>
    let folders := cs.filter (fun c => c.is_folder && matchesParent c.parent_id parentId)
    let folderNodes := folders.map (fun f =>
      folderNode f (buildTree cs reqs fuel (some f.id) ++ (reqs f.id).map requestLeaf))
    let rootCols := cs.filter (fun c => !c.is_folder && matchesParent c.parent_id parentId)
    folderNodes ++ rootCols.flatMap (fun c => (reqs c.id).map requestLeaf)

/-- The collectionTree computed of the store, at the root sentinel. -/
def collectionTree (fuel : Nat) (s : AppState) : List TreeNode :=
  buildTree s.collections (lookupReqs s.requests) fuel none

/-- The global single-quote escaping applied to the curl body: every
apostrophe becomes the four-character shell escape sequence. -/
def escQuote : List Char → List Char
  | [] => []
  | c :: cs =>
    if c = '\x27' then '\x27' :: '\\' :: '\x27' :: '\x27' :: escQuote cs
    else c :: escQuote cs

/-- The curl body escaping at the string level. -/
def escBody (s : String) : String := String.mk (escQuote s.data)

/-- The auto-injected JSON content-type flag. -/
def ctFlag : String := "-H \x27Content-Type: application/json\x27"

/-- One emitted header flag. -/
def headerFlag (h : KeyValue) : String :=
  "-H \x27" ++ h.key ++ ": " ++ h.value ++ "\x27"

/-- The enabled, non-empty-key headers emitted by generateCurl. -/
def enabledHeadersOf (r : HttpRequest) : List KeyValue :=
  r.headers.filter (fun h => h.enabled && h.key ≠ "")

/-- The method flag of generateCurl, omitted for GET. -/
def curlMethodParts (r : HttpRequest) : List String :=
  if r.method ≠ "GET" then ["-X " ++ r.method] else []

/-- The auth flags of generateCurl: basic credentials, a bearer header,
or an api-key header, each guarded by the truthiness of its field. -/
def curlAuthParts (r : HttpRequest) : List String :=
  if r.auth_type = "basic" ∧ jsTruthyS r.auth_data.username then
    ["-u \x27" ++ (r.auth_data.username.getD "") ++ ":" ++ (r.auth_data.password.getD "") ++ "\x27"]
  else if r.auth_type = "bearer" ∧ jsTruthyS r.auth_data.token then
    ["-H \x27Authorization: Bearer " ++ (r.auth_data.token.getD "") ++ "\x27"]
  else if r.auth_type = "apikey" ∧ jsTruthyS r.auth_data.key then
    ["-H \x27" ++ (r.auth_data.key.getD "") ++ ": " ++ jsStrOpt r.auth_data.value_field ++ "\x27"]
  else []

/-- The body flags of generateCurl: the escaped body when it is
non-empty and typed, plus the auto-injected JSON content type unless an
enabled header already carries one. -/
def curlBodyParts (r : HttpRequest) : List String :=
  if r.body ≠ "" ∧ r.body_type ≠ "none" then
    ["-d \x27" ++ escBody r.body ++ "\x27"]
      ++ (if !((enabledHeadersOf r).any (fun h => lowerStr h.key == "content-type"))
            ∧ r.body_type = "json" then [ctFlag] else [])
  else []

/-- generateCurl from the store, as the list of emitted parts: method
flag unless GET, enabled non-empty-key headers in list order, one auth
flag by auth_type, the escaped body with the content-type auto-inject
guarded by a single check over the enabled headers, and the url last. -/
def curlParts (r : HttpRequest) : List String :=
  ["curl"] ++ curlMethodParts r ++ (enabledHeadersOf r).map headerFlag ++ curlAuthParts r
    ++ curlBodyParts r ++ ["\x27" ++ r.url ++ "\x27"]

/-- generateCurl from the store: the parts joined by the line
continuation separator. -/
def generateCurl (r : HttpRequest) : String :=
  String.intercalate " \\\n  " (curlParts r)

/-- The length of a list is unchanged by modifyTab. -/
theorem length_modifyTab (i : Nat) (f : RequestTab → RequestTab) (l : List RequestTab) :
    (modifyTab i f l).length = l.length := by
  unfold modifyTab
  cases h : l[i]? with
  | none => rfl
  | some t => simp [List.length_set]

/-- Reading back the modified position of modifyTab. -/
theorem getElem?_modifyTab_self (i : Nat) (f : RequestTab → RequestTab) (l : List RequestTab) :
    (modifyTab i f l)[i]? = l[i]?.map f := by
  unfold modifyTab
  cases h : l[i]? with
  | none => simp [h]
  | some t =>
    have hi : i < l.length := by
      by_contra hc
      rw [List.getElem?_eq_none (by omega)] at h
      exact Option.noConfusion h
    simp [h, List.getElem?_set_self, hi]

/-- Two modifyTab writes at the same position compose. -/
theorem modifyTab_modifyTab (i : Nat) (f g : RequestTab → RequestTab) (l : List RequestTab) :
    modifyTab i f (modifyTab i g l) = modifyTab i (fun t => f (g t)) l := by
  unfold modifyTab
  cases h : l[i]? with
  | none => simp [h]
  | some t =>
    have hi : i < l.length := by
      by_contra hc
      rw [List.getElem?_eq_none (by omega)] at h
      exact Option.noConfusion h
    simp [h, List.getElem?_set_self, hi, List.set_set]

/-- findTabIdx finds nothing exactly when no element matches. -/
theorem findTabIdx_eq_none_iff (p : RequestTab → Bool) (l : List RequestTab) :
    findTabIdx p l = none ↔ ∀ t ∈ l, ¬ p t := by
  induction l with
  | nil => simp [findTabIdx]
  | cons x xs ih =>
    by_cases hx : p x
    · simp [findTabIdx, hx]
    · simp [findTabIdx, hx, ih]

/-- A found index designates a matching element. -/
theorem findTabIdx_spec (p : RequestTab → Bool) (l : List RequestTab) (j : Nat)
    (h : findTabIdx p l = some j) : ∃ t, l[j]? = some t ∧ p t = true := by
  induction l generalizing j with
  | nil => exact absurd h (by simp [findTabIdx])
  | cons x xs ih =>
    by_cases hx : p x
    · simp only [findTabIdx, hx, if_pos] at h
      cases h
      exact ⟨x, by simp, hx⟩
    · simp only [findTabIdx, hx, if_neg, Bool.false_eq_true, not_false_iff, Option.map_eq_some'] at h
      obtain ⟨j', hj', rfl⟩ := h
      obtain ⟨t, ht, hpt⟩ := ih j' hj'
      exact ⟨t, by simpa using ht, hpt⟩

/-- A matching element guarantees findTabIdx succeeds. -/
theorem findTabIdx_isSome_of_mem (p : RequestTab → Bool) (l : List RequestTab)
    (t : RequestTab) (ht : t ∈ l) (hp : p t = true) : ∃ j, findTabIdx p l = some j := by
  induction l with
  | nil => exact absurd ht (List.not_mem_nil t)
  | cons x xs ih =>
    by_cases hx : p x
    · exact ⟨0, by simp [findTabIdx, hx]⟩
    · rcases List.mem_cons.mp ht with rfl | hmem
      · exact absurd hp (by simp [hx])
      · obtain ⟨j, hj⟩ := ih hmem
        exact ⟨j + 1, by simp [findTabIdx, hx, hj]⟩

/-- Overwriting one position with a matching element in a list with no
matching element yields exactly one match. -/
theorem countP_set_eq_one (p : RequestTab → Bool) :
    ∀ (l : List RequestTab) (i : Nat) (a : RequestTab), i < l.length →
      l.countP p = 0 → p a = true → (l.set i a).countP p = 1 := by
  intro l
  induction l with
  | nil => intro i a hi; simp at hi
  | cons x xs ih =>
    intro i a hi hc hp
    rw [List.countP_cons] at hc
    have hx : ¬ p x := by
      by_cases h : p x
      · simp [h] at hc
      · exact h
    have hxs : xs.countP p = 0 := by
      by_cases h : p x
      · exact absurd h hx
      · simpa [h] using hc
    cases i with
    | zero => simp [List.countP_cons, hp, hxs]
    | succ i' =>
      have hi' : i' < xs.length := by simpa using hi
      simp [List.countP_cons, hx, ih i' a hi' hxs hp]

/-- modifyTab with a function forcing a match, in a list with no match,
yields exactly one match. -/
theorem countP_modifyTab_eq_one (p : RequestTab → Bool) (l : List RequestTab) (i : Nat)
    (F : RequestTab → RequestTab) (hi : i < l.length) (hc : l.countP p = 0)
    (hF : ∀ t, p (F t) = true) : (modifyTab i F l).countP p = 1 := by
  unfold modifyTab
  rw [List.getElem?_eq_getElem hi]
  exact countP_set_eq_one p l i (F l[i]) hi hc (hF _)

/-- When some tab is bound to the requested id, loadRequest activates
the first such tab and leaves the tab list untouched. -/
theorem loadRequest_activates (s : AppState) (id : String) (req : Request) (b : Bool)
    (parseKV : String → List KeyValue) (parseAuth : String → AuthData) (tid : String)
    (h : ∃ t ∈ s.openTabs, t.requestId = some id) :
    ∃ j, findTabIdx (fun t => t.requestId == some id) s.openTabs = some j ∧
      loadRequest id b (some req) parseKV parseAuth tid s = { s with activeTabIndex := j } ∧
      ∃ t, s.openTabs[j]? = some t ∧ t.requestId = some id := by
  obtain ⟨t, hmem, hbound⟩ := h
  obtain ⟨j, hj⟩ := findTabIdx_isSome_of_mem (fun t => t.requestId == some id) s.openTabs t hmem
    (by simp [hbound])
  obtain ⟨t', ht', hpt'⟩ := findTabIdx_spec _ _ j hj
  refine ⟨j, hj, ?_, t', ht', by simpa using hpt'⟩
  unfold loadRequest
  rw [hj]

/-- One loadRequest call, under the reachable-state invariants, leaves
exactly one tab bound to the loaded id. -/
theorem boundTabCount_loadRequest_one (s : AppState) (id : String) (req : Request)
    (parseKV : String → List KeyValue) (parseAuth : String → AuthData) (tid : String)
    (hidx : s.activeTabIndex < s.openTabs.length)
    (hcount : boundTabCount id s ≤ 1)
    (hrid : req.id = id) (hid : id ≠ "") :
    boundTabCount id (loadRequest id false (some req) parseKV parseAuth tid s) = 1 := by
  cases hf : findTabIdx (fun t => t.requestId == some id) s.openTabs with
  | some j =>
    obtain ⟨t, htj, hpt⟩ := findTabIdx_spec _ _ j hf
    have hpos : 0 < s.openTabs.countP (fun t => t.requestId == some id) :=
      List.countP_pos_iff.mpr ⟨t, List.getElem?_mem htj, hpt⟩
    have hres : loadRequest id false (some req) parseKV parseAuth tid s =
        { s with activeTabIndex := j } := by
      unfold loadRequest
      rw [hf]
    rw [hres]
    simp only [boundTabCount] at hcount ⊢
    omega
  | none =>
    have hzero : s.openTabs.countP (fun t => t.requestId == some id) = 0 :=
      List.countP_eq_zero.mpr ((findTabIdx_eq_none_iff _ _).mp hf)
    have hres : loadRequest id false (some req) parseKV parseAuth tid s =
        (if jsTruthyS ((activeTab? s).bind RequestTab.requestId)
            || (((activeTab? s).map RequestTab.isDirty).getD false) then
          createNewTab req.name (some req) parseKV parseAuth tid s
        else
          let s₁ := setSelectedRequestId (some id) s
          let s₂ := setCurrentRequest (hydrate req parseKV parseAuth) s₁
          let f : RequestTab → RequestTab := fun t => { t with name := req.name, isDirty := false }
          { s₂ with openTabs := modifyTab s₂.activeTabIndex f s₂.openTabs }) := by
      unfold loadRequest
      rw [hf]
      simp only [Bool.false_or]
    rw [hres]
    by_cases hg : (jsTruthyS ((activeTab? s).bind RequestTab.requestId)
        || (((activeTab? s).map RequestTab.isDirty).getD false)) = true
    · rw [if_pos hg]
      simp only [boundTabCount, createNewTab, List.countP_append, hzero]
      simp [List.countP_cons, hrid, hid]
    · rw [if_neg (by simpa using hg)]
      simp only [boundTabCount, setSelectedRequestId, setCurrentRequest,
        modifyTab_modifyTab]
      exact countP_modifyTab_eq_one _ _ _ _ hidx hzero (by intro t; simp)

/-- Claim C2: if some open tab is already bound to the requested id,
loadRequest activates that tab and creates no new tab; and two
consecutive loadRequest calls for the same saved id, starting from a
state with at most one tab bound to that id and a valid active index,
leave exactly one tab bound to the id. -/
theorem loadRequest_dedup (s : AppState) (id : String) (req req₂ : Request)
    (parseKV parseKV₂ : String → List KeyValue) (parseAuth parseAuth₂ : String → AuthData)
    (tid tid₂ : String)
    (hidx : s.activeTabIndex < s.openTabs.length)
    (hcount : boundTabCount id s ≤ 1)
    (hrid : req.id = id) (hid : id ≠ "") :
    ((∃ t ∈ s.openTabs, t.requestId = some id) →
      ∃ j, loadRequest id false (some req) parseKV parseAuth tid s = { s with activeTabIndex := j } ∧
        ∃ t, s.openTabs[j]? = some t ∧ t.requestId = some id) ∧
    boundTabCount id
      (loadRequest id false (some req₂) parseKV₂ parseAuth₂ tid₂
        (loadRequest id false (some req) parseKV parseAuth tid s)) = 1 := by
  constructor
  · intro h
    obtain ⟨j, _, hres, hwit⟩ := loadRequest_activates s id req false parseKV parseAuth tid h
    exact ⟨j, hres, hwit⟩
  · have h1 : boundTabCount id (loadRequest id false (some req) parseKV parseAuth tid s) = 1 :=
      boundTabCount_loadRequest_one s id req parseKV parseAuth tid hidx hcount hrid hid
    have hex : ∃ t ∈ (loadRequest id false (some req) parseKV parseAuth tid s).openTabs,
        t.requestId = some id := by
      have := List.countP_pos_iff.mp (by rw [show
        (loadRequest id false (some req) parseKV parseAuth tid s).openTabs.countP
          (fun t => t.requestId == some id) = 1 from h1]; omega)
      obtain ⟨t, hmem, hpt⟩ := this
      exact ⟨t, hmem, by simpa using hpt⟩
    obtain ⟨j, _, hres, _⟩ :=
      loadRequest_activates _ id req₂ false parseKV₂ parseAuth₂ tid₂ hex
    rw [hres]
    simpa [boundTabCount] using h1

/-- Witness for C2 at a concrete state: one clean unbound tab, loading a
saved request twice. -/
theorem loadRequest_dedup_witness :
    let t0 : RequestTab :=
      { id := "t0", name := "New Request", request := defaultRequest,
        response := none, requestId := none, isLoading := false, isDirty := false }
    let s0 : AppState :=
      { collections := [], requests := [], environments := [], activeEnvironment := none,
        history := [], openTabs := [t0], activeTabIndex := 0 }
    let req : Request :=
      { id := "r1", collection_id := "c1", name := "Login", method := "GET",
        url := "https://x/login", headers := "[]", body := "", body_type := "none",
        auth_type := "none", auth_data := "\x7b\x7d", created_at := "", updated_at := "" }
    let pk : String → List KeyValue := fun _ => []
    let pa : String → AuthData := fun _ => {}
    boundTabCount "r1" (loadRequest "r1" false (some req) pk pa "t2"
      (loadRequest "r1" false (some req) pk pa "t1" s0)) = 1 := by
  intro t0 s0 req pk pa
  exact (loadRequest_dedup s0 "r1" req req pk pk pa pa "t1" "t2"
    (by decide) (by decide) rfl (by decide)).2

/-- The active tab of a state whose tabs were rewritten through
modifyTab at the active index. -/
theorem activeTab?_modifyTab_state (s : AppState) (f : RequestTab → RequestTab) :
    activeTab? { s with openTabs := modifyTab s.activeTabIndex f s.openTabs } =
      (activeTab? s).map f := by
  unfold activeTab?
  exact getElem?_modifyTab_self s.activeTabIndex f s.openTabs

/-- The isLoading setter does not change the active draft. -/
theorem currentRequestGet_setIsLoading (b : Bool) (s : AppState) :
    currentRequestGet (setIsLoading b s) = currentRequestGet s := by
  unfold currentRequestGet setIsLoading
  rw [activeTab?_modifyTab_state]
  cases activeTab? s <;> simp

/-- The currentResponse setter does not change the active draft. -/
theorem currentRequestGet_setCurrentResponse (v : Option HttpResponse) (s : AppState) :
    currentRequestGet (setCurrentResponse v s) = currentRequestGet s := by
  unfold currentRequestGet setCurrentResponse
  rw [activeTab?_modifyTab_state]
  cases activeTab? s <;> simp

/-- Writing the headers back leaves every other draft field unchanged
(in the out-of-range case both sides are the default draft, whose header
list is empty). -/
theorem currentRequestGet_setActiveDraftHeaders (hs : List KeyValue) (s : AppState) :
    currentRequestGet (setActiveDraftHeaders hs s) =
      { currentRequestGet s with headers := if (activeTab? s).isSome then hs else [] } := by
  unfold currentRequestGet setActiveDraftHeaders
  rw [activeTab?_modifyTab_state]
  cases activeTab? s with
  | some t => simp
  | none => simp [defaultRequest]

/-- Claim C1: closeTab never leaves the open-tab list with fewer than
one tab; with exactly one tab open (the active one), it does not remove
it but resets its draft to the default, clears its response and its
binding, renames it to the default name and clears isDirty. -/
theorem closeTab_preserves_nonempty (s : AppState) (index : Nat)
    (hne : 1 ≤ s.openTabs.length) :
    1 ≤ (closeTab index s).openTabs.length ∧
    (∀ t : RequestTab, s.openTabs = [t] → s.activeTabIndex = 0 →
      (closeTab index s).openTabs =
        [{ t with request := defaultRequest, response := none, requestId := none,
                  name := "New Request", isDirty := false }]) := by
  have hreset : (resetCurrentRequest s).openTabs.length = s.openTabs.length := by
    simp only [resetCurrentRequest, setSelectedRequestId, setCurrentResponse, setCurrentRequest]
    simp [length_modifyTab]
  constructor
  · unfold closeTab
    by_cases h1 : s.openTabs.length = 1
    · rw [if_pos h1]
      simp only [length_modifyTab]
      omega
    · rw [if_neg h1]
      simp only [List.length_eraseIdx]
      split <;> omega
  · intro t ht hai
    have hlen : s.openTabs.length = 1 := by rw [ht]; rfl
    unfold closeTab
    rw [if_pos hlen]
    simp only [resetCurrentRequest, setSelectedRequestId, setCurrentResponse, setCurrentRequest]
    rw [ht, hai]
    rfl

/-- Witness for C1 at a concrete single-tab state. -/
theorem closeTab_preserves_nonempty_witness :
    let t0 : RequestTab :=
      { id := "t0", name := "A", request := { defaultRequest with url := "https://x", method := "POST" },
        response := none, requestId := some "r1", isLoading := false, isDirty := true }
    let s0 : AppState :=
      { collections := [], requests := [], environments := [], activeEnvironment := none,
        history := [], openTabs := [t0], activeTabIndex := 0 }
    1 ≤ (closeTab 0 s0).openTabs.length ∧
      (closeTab 0 s0).openTabs =
        [{ t0 with request := defaultRequest, response := none, requestId := none,
                   name := "New Request", isDirty := false }] := by
  intro t0 s0
  have h := closeTab_preserves_nonempty s0 0 (by decide)
  exact ⟨h.1, h.2 t0 rfl rfl⟩

/-- The setters touch only the tab list, not the environment. -/
theorem activeEnvironment_setIsLoading (b : Bool) (s : AppState) :
    (setIsLoading b s).activeEnvironment = s.activeEnvironment := rfl

/-- The response setter touches only the tab list. -/
theorem activeEnvironment_setCurrentResponse (v : Option HttpResponse) (s : AppState) :
    (setCurrentResponse v s).activeEnvironment = s.activeEnvironment := rfl

/-- The header write-back touches only the tab list. -/
theorem activeEnvironment_setActiveDraftHeaders (hs : List KeyValue) (s : AppState) :
    (setActiveDraftHeaders hs s).activeEnvironment = s.activeEnvironment := rfl

/-- Claim C3 (amended): on send, interpolation is applied to the
outbound url, to the value of every header (enabled or disabled alike),
and to the body whenever the body string is non-empty, regardless of
body_type; everything only under an active environment, and no other
field of the dispatched copy differs from the draft. -/
theorem sendRequest_interpolation_scope (interp : String → String)
    (httpResult : Option HttpResponse) (histId now : String)
    (histOk : History → Bool) (histReload : Option (List History)) (s : AppState) :
    (sendRequest interp httpResult histId now histOk histReload s).dispatched =
      { currentRequestGet s with
          url := if s.activeEnvironment.isSome then interp (currentRequestGet s).url
                 else (currentRequestGet s).url
          headers := if s.activeEnvironment.isSome then
              (currentRequestGet s).headers.map (fun h => { h with value := interp h.value })
            else (currentRequestGet s).headers
          body := if s.activeEnvironment.isSome ∧ (currentRequestGet s).body ≠ "" then
              interp (currentRequestGet s).body else (currentRequestGet s).body } := by
  have hcr₁ : currentRequestGet (setCurrentResponse none (setIsLoading true s)) =
      currentRequestGet s := by
    rw [currentRequestGet_setCurrentResponse, currentRequestGet_setIsLoading]
  by_cases henv : s.activeEnvironment.isSome
  · cases httpResult <;>
      simp [sendRequest, henv, hcr₁, currentRequestGet_setActiveDraftHeaders,
        activeEnvironment_setIsLoading, activeEnvironment_setCurrentResponse,
        activeEnvironment_setActiveDraftHeaders]
  · cases httpResult <;>
      simp [sendRequest, henv, hcr₁,
        activeEnvironment_setIsLoading, activeEnvironment_setCurrentResponse]

/-- Counterexample to claim C3 as stated: with an active environment, a
disabled header's value and the body of a draft whose body_type is none
are dispatched interpolated, not raw. -/
theorem sendRequest_interpolation_scope_cex :
    let draft0 : HttpRequest :=
      { defaultRequest with
          url := "u"
          headers := [{ key := "H", value := "\x7b\x7bv\x7d\x7d", enabled := false }]
          body := "\x7b\x7bv\x7d\x7d"
          body_type := "none" }
    let t0 : RequestTab :=
      { id := "t0", name := "A", request := draft0, response := none,
        requestId := none, isLoading := false, isDirty := false }
    let env0 : Environment :=
      { id := "e", name := "E", «variables» := "[]", is_active := true, created_at := "" }
    let s0 : AppState :=
      { collections := [], requests := [], environments := [env0],
        activeEnvironment := some env0, history := [], openTabs := [t0], activeTabIndex := 0 }
    let interp : String → String := fun txt => if txt = "\x7b\x7bv\x7d\x7d" then "x" else txt
    let resp0 : HttpResponse :=
      { status := 200, status_text := "OK", headers := [], body := "",
        response_time := 1, size := 0, cookies := [] }
    let out := sendRequest interp (some resp0) "h1" "now" (fun _ => true) none s0
    out.dispatched.headers = [{ key := "H", value := "x", enabled := false }] ∧
      out.dispatched.body = "x" ∧ "x" ≠ "\x7b\x7bv\x7d\x7d" := by
  decide

/-- Claim C4 fails on the code: the send pipeline writes the
interpolated header values back into the stored draft, because the
spread copy of the headers array is shallow and the loop assigns
through the shared header objects. At this input the stored draft's
header value changes from the raw token to its expansion. -/
theorem sendRequest_mutates_stored_draft :
    let draft0 : HttpRequest :=
      { defaultRequest with
          headers := [{ key := "Authorization", value := "\x7b\x7btoken\x7d\x7d", enabled := true }] }
    let t0 : RequestTab :=
      { id := "t0", name := "A", request := draft0, response := none,
        requestId := none, isLoading := false, isDirty := false }
    let env0 : Environment :=
      { id := "e", name := "E", «variables» := "[]", is_active := true, created_at := "" }
    let s0 : AppState :=
      { collections := [], requests := [], environments := [env0],
        activeEnvironment := some env0, history := [], openTabs := [t0], activeTabIndex := 0 }
    let interp : String → String := fun txt => if txt = "\x7b\x7btoken\x7d\x7d" then "abc" else txt
    let resp0 : HttpResponse :=
      { status := 200, status_text := "OK", headers := [], body := "",
        response_time := 1, size := 0, cookies := [] }
    let out := sendRequest interp (some resp0) "h1" "now" (fun _ => true) none s0
    (out.state.openTabs.map fun t => t.request.headers) =
        [[{ key := "Authorization", value := "abc", enabled := true }]] ∧
      draft0.headers ≠ [{ key := "Authorization", value := "abc", enabled := true }] := by
  decide

/-- Claim C5 fails on the code: draft edits reach the draft through
property writes on the object returned by the currentRequest getter,
which bypass the computed setter, so isDirty stays false after both a
header addition and a url edit even though the draft changed. -/
theorem draft_edits_do_not_set_dirty :
    let t0 : RequestTab :=
      { id := "t0", name := "New Request", request := defaultRequest, response := none,
        requestId := none, isLoading := false, isDirty := false }
    let s0 : AppState :=
      { collections := [], requests := [], environments := [], activeEnvironment := none,
        history := [], openTabs := [t0], activeTabIndex := 0 }
    let h : KeyValue := { key := "X-Test", value := "1", enabled := true }
    ((addHeader h s0).openTabs.map fun t => t.isDirty) = [false] ∧
      ((addHeader h s0).openTabs.map fun t => t.request.headers) = [[h]] ∧
      ((editUrl "https://y" s0).openTabs.map fun t => t.isDirty) = [false] ∧
      ((editUrl "https://y" s0).openTabs.map fun t => t.request.url) = ["https://y"] := by
  decide

/-- Claim C9: within one send, interpolation of the url, of every
header value and of the body all happen strictly before dispatch (the
dispatched copy is exactly the draft with those fields interpolated),
and a successful send submits exactly one history entry, built after
the response arrives, with the draft's method and the response's
status; a rejected send submits none. -/
theorem sendRequest_history_protocol (interp : String → String) (resp : HttpResponse)
    (histId now : String) (histOk : History → Bool) (histReload : Option (List History))
    (s : AppState) :
    (sendRequest interp (some resp) histId now histOk histReload s).appendedHistory =
      [{ id := histId, method := (currentRequestGet s).method, url := (currentRequestGet s).url,
         status := resp.status, response_time := resp.response_time, created_at := now }] ∧
    (sendRequest interp none histId now histOk histReload s).appendedHistory = [] ∧
    (sendRequest interp (some resp) histId now histOk histReload s).dispatched =
      { currentRequestGet s with
          url := if s.activeEnvironment.isSome then interp (currentRequestGet s).url
                 else (currentRequestGet s).url
          headers := if s.activeEnvironment.isSome then
              (currentRequestGet s).headers.map (fun h => { h with value := interp h.value })
            else (currentRequestGet s).headers
          body := if s.activeEnvironment.isSome ∧ (currentRequestGet s).body ≠ "" then
              interp (currentRequestGet s).body else (currentRequestGet s).body } := by
  have hcr₁ : currentRequestGet (setCurrentResponse none (setIsLoading true s)) =
      currentRequestGet s := by
    rw [currentRequestGet_setCurrentResponse, currentRequestGet_setIsLoading]
  by_cases henv : s.activeEnvironment.isSome
  · refine ⟨?_, by simp [sendRequest], ?_⟩ <;>
      simp [sendRequest, henv, hcr₁, currentRequestGet_setActiveDraftHeaders,
        activeEnvironment_setIsLoading, activeEnvironment_setCurrentResponse,
        activeEnvironment_setActiveDraftHeaders, currentRequestGet_setCurrentResponse]
  · refine ⟨?_, by simp [sendRequest], ?_⟩ <;>
      simp [sendRequest, henv, hcr₁,
        activeEnvironment_setIsLoading, activeEnvironment_setCurrentResponse,
        currentRequestGet_setCurrentResponse]

/-- Claim C10: the history entry of a successful send records the raw
draft url, unexpanded tokens included, while the dispatched copy
carries the interpolated url. -/
theorem sendRequest_history_records_raw_url (interp : String → String) (resp : HttpResponse)
    (histId now : String) (histOk : History → Bool) (histReload : Option (List History))
    (s : AppState) :
    ((sendRequest interp (some resp) histId now histOk histReload s).appendedHistory.map
        History.url) = [(currentRequestGet s).url] ∧
    (sendRequest interp (some resp) histId now histOk histReload s).dispatched.url =
      (if s.activeEnvironment.isSome then interp (currentRequestGet s).url
       else (currentRequestGet s).url) := by
  have hcr₁ : currentRequestGet (setCurrentResponse none (setIsLoading true s)) =
      currentRequestGet s := by
    rw [currentRequestGet_setCurrentResponse, currentRequestGet_setIsLoading]
  by_cases henv : s.activeEnvironment.isSome
  · constructor <;>
      simp [sendRequest, henv, hcr₁, currentRequestGet_setActiveDraftHeaders,
        activeEnvironment_setIsLoading, activeEnvironment_setCurrentResponse,
        activeEnvironment_setActiveDraftHeaders, currentRequestGet_setCurrentResponse]
  · constructor <;>
      simp [sendRequest, henv, hcr₁,
        activeEnvironment_setIsLoading, activeEnvironment_setCurrentResponse,
        currentRequestGet_setCurrentResponse]

/-- Reloading one collection's requests does not touch the collection
mirror. -/
theorem collections_loadRequestsByCollection (cid : String) (r : Option (List Request))
    (s : AppState) : (loadRequestsByCollection cid r s).collections = s.collections := by
  cases r <;> rfl

/-- The per-collection reload loop of loadCollections does not touch the
collection mirror. -/
theorem collections_reload_foldl (rr : String → Option (List Request)) :
    ∀ (cols : List Collection) (s : AppState),
      (cols.foldl (fun st c => loadRequestsByCollection c.id (rr c.id) st) s).collections =
        s.collections := by
  intro cols
  induction cols with
  | nil => intro s; rfl
  | cons c cs ih =>
    intro s
    rw [List.foldl_cons, ih, collections_loadRequestsByCollection]

/-- A successful loadCollections replaces the collection mirror with the
fetched list. -/
theorem collections_loadCollections (L : List Collection)
    (rr : String → Option (List Request)) (s : AppState) :
    (loadCollections (some L) rr s).collections = L := by
  unfold loadCollections
  rw [collections_reload_foldl]

/-- In the replaced map, the first entry matching the key is the new
pair. -/
theorem find?_setMap (k : String) (v : List Request) :
    ∀ ps : List (String × List Request), ps.any (fun q => q.1 == k) = true →
      (ps.map (fun q => if q.1 == k then (k, v) else q)).find? (fun q => q.1 == k) =
        some (k, v) := by
  intro ps
  induction ps with
  | nil => intro h; simp at h
  | cons q qs ih =>
    intro h
    by_cases hq : (q.1 == k) = true
    · rw [List.map_cons, if_pos hq]
      exact List.find?_cons_of_pos _ (by simp)
    · have hqs : qs.any (fun q => q.1 == k) = true := by
        rw [List.any_cons] at h
        rcases Bool.or_eq_true_iff.mp h with h' | h'
        · exact absurd h' hq
        · exact h'
      rw [List.map_cons, if_neg hq,
        List.find?_cons_of_neg _ (by simp only [Bool.not_eq_true]; simpa using hq)]
      exact ih hqs

/-- In the appended map, the appended pair is found when no earlier
entry matches the key. -/
theorem find?_appendSingle (k : String) (v : List Request) :
    ∀ ps : List (String × List Request), ps.any (fun q => q.1 == k) = false →
      (ps ++ [(k, v)]).find? (fun q => q.1 == k) = some (k, v) := by
  intro ps
  induction ps with
  | nil => intro h; exact List.find?_cons_of_pos _ (by simp)
  | cons q qs ih =>
    intro h
    have hq : (q.1 == k) = false := by
      by_cases hq' : (q.1 == k) = true
      · rw [List.any_cons, hq', Bool.true_or] at h
        exact absurd h (by simp)
      · simpa using hq'
    have hqs : qs.any (fun q => q.1 == k) = false := by
      rw [List.any_cons, hq, Bool.false_or] at h
      exact h
    rw [List.cons_append,
      List.find?_cons_of_neg _ (by simp only [Bool.not_eq_true]; exact hq)]
    exact ih hqs

/-- Map.set followed by Map.get at the same key returns the new value. -/
theorem lookupReqs_setReqs (k : String) (v : List Request)
    (m : List (String × List Request)) : lookupReqs (setReqs k v m) k = v := by
  unfold setReqs
  by_cases h : m.any (fun q => q.1 == k) = true
  · rw [if_pos h]
    unfold lookupReqs
    rw [find?_setMap k v m h]
  · rw [if_neg h]
    unfold lookupReqs
    rw [find?_appendSingle k v m (Bool.eq_false_iff.mpr h)]

/-- Claim C6: every mutating store operation follows the
write-then-reload protocol. With a rejecting persistence oracle the
whole state, hence every in-memory mirror, is left exactly as it was;
with an accepting oracle the affected mirror is replaced by the reload
result (createCollection and deleteCollection reload the collections,
saveCurrentRequest and deleteRequest the one collection's request list,
the environment operations the environment list together with the
recomputed active environment; updateEnvironment and
setActiveEnvironment persist nothing when the id is unknown). -/
theorem mutations_write_then_reload
    (s : AppState)
    (name cid id nid now : String) (pid : Option String) (isF isAct : Bool)
    (serKV : List KeyValue → String) (serAuth : AuthData → String)
    (serVars : List EnvironmentVariable → String)
    (vars : List EnvironmentVariable)
    (rc : Option (List Collection)) (rr : String → Option (List Request))
    (rl : Option (List Request)) (re : Option (List Environment))
    (L : List Collection) (R : List Request) (E : List Environment) :
    (createCollection name pid isF nid now (fun _ => false) rc rr s = s) ∧
    ((createCollection name pid isF nid now (fun _ => true) (some L) rr s).collections = L) ∧
    (deleteCollection id (fun _ => false) rc rr s = s) ∧
    ((deleteCollection id (fun _ => true) (some L) rr s).collections = L) ∧
    (saveCurrentRequest name cid serKV serAuth nid now (fun _ => false) rl s = s) ∧
    (lookupReqs
      (saveCurrentRequest name cid serKV serAuth nid now (fun _ => true) (some R) s).requests
      cid = R) ∧
    (deleteRequest id cid (fun _ => false) rl s = s) ∧
    (lookupReqs (deleteRequest id cid (fun _ => true) (some R) s).requests cid = R) ∧
    (saveEnvironment name vars isAct serVars nid now (fun _ => false) re s = s) ∧
    ((saveEnvironment name vars isAct serVars nid now (fun _ => true) (some E) s).environments
        = E ∧
      (saveEnvironment name vars isAct serVars nid now (fun _ => true) (some E) s).activeEnvironment
        = E.find? (fun e => e.is_active)) ∧
    (updateEnvironment id name vars serVars (fun _ => false) re s = s) ∧
    (updateEnvironment id name vars serVars (fun _ => true) (some E) s =
      (match s.environments.find? (fun e => e.id == id) with
        | some _ => loadEnvironments (some E) s
        | none => s)) ∧
    (setActiveEnvironment id (fun _ => false) re s = s) ∧
    (setActiveEnvironment id (fun _ => true) (some E) s =
      (match s.environments.find? (fun e => e.id == id) with
        | some _ => loadEnvironments (some E) s
        | none => s)) ∧
    (deleteEnvironment id (fun _ => false) re s = s) ∧
    ((deleteEnvironment id (fun _ => true) (some E) s).environments = E) := by
  refine ⟨rfl, collections_loadCollections L rr s, rfl, collections_loadCollections L rr s,
    rfl, ?_, rfl, ?_, rfl, ⟨rfl, rfl⟩, ?_, ?_, ?_, ?_, rfl, rfl⟩
  · show lookupReqs (setReqs cid R s.requests) cid = R
    exact lookupReqs_setReqs cid R s.requests
  · show lookupReqs
      (if (selectedRequestIdGet (loadRequestsByCollection cid (some R) s) == some id) = true then
        (resetCurrentRequest (setSelectedRequestId none (loadRequestsByCollection cid (some R) s)))
      else loadRequestsByCollection cid (some R) s).requests cid = R
    by_cases hc :
        (selectedRequestIdGet (loadRequestsByCollection cid (some R) s) == some id) = true
    · rw [if_pos hc]
      show lookupReqs (setReqs cid R s.requests) cid = R
      exact lookupReqs_setReqs cid R s.requests
    · rw [if_neg hc]
      show lookupReqs (setReqs cid R s.requests) cid = R
      exact lookupReqs_setReqs cid R s.requests
  · cases hf : s.environments.find? (fun e => e.id == id) <;>
      simp [updateEnvironment, hf]
  · cases hf : s.environments.find? (fun e => e.id == id) <;>
      simp [updateEnvironment, hf]
  · cases hf : s.environments.find? (fun e => e.id == id) <;>
      simp [setActiveEnvironment, hf]
  · cases hf : s.environments.find? (fun e => e.id == id) <;>
      simp [setActiveEnvironment, hf]

/-- Claim C7: at every level of the built tree, folder nodes come
first, in the insertion order of the source collections list (the
filtered folder list is a sublist of the input, so no reordering
happens); each folder node's children are the recursively built
subtree followed by that folder's own requests as leaves; each matching
non-folder collection is expanded directly into its owned requests as
leaves; and every node of the output is either such a folder node built
from an is_folder collection or a request leaf owned by a matching
collection, so a non-folder collection never appears as a container
node. -/
theorem buildTree_level_structure (cs : List Collection) (reqs : String → List Request)
    (fuel : Nat) (p : Option String) :
    (buildTree cs reqs (fuel + 1) p =
      (cs.filter (fun c => c.is_folder && matchesParent c.parent_id p)).map (fun f =>
        folderNode f (buildTree cs reqs fuel (some f.id) ++ (reqs f.id).map requestLeaf)) ++
      (cs.filter (fun c => !c.is_folder && matchesParent c.parent_id p)).flatMap (fun c =>
        (reqs c.id).map requestLeaf)) ∧
    ((cs.filter (fun c => c.is_folder && matchesParent c.parent_id p)).Sublist cs) ∧
    (∀ n ∈ buildTree cs reqs (fuel + 1) p,
      (∃ f, f ∈ cs ∧ f.is_folder = true ∧ matchesParent f.parent_id p = true ∧
        n = folderNode f (buildTree cs reqs fuel (some f.id) ++ (reqs f.id).map requestLeaf)) ∨
      (∃ c r, c ∈ cs ∧ c.is_folder = false ∧ matchesParent c.parent_id p = true ∧
        r ∈ reqs c.id ∧ n = requestLeaf r)) := by
  refine ⟨rfl, List.filter_sublist cs, ?_⟩
  intro n hn
  rcases List.mem_append.mp hn with h | h
  · obtain ⟨f, hf, rfl⟩ := List.mem_map.mp h
    obtain ⟨hfc, hfp⟩ := List.mem_filter.mp hf
    obtain ⟨hfold, hmatch⟩ := Bool.and_eq_true_iff.mp hfp
    exact Or.inl ⟨f, hfc, hfold, hmatch, rfl⟩
  · obtain ⟨c, hc, hr⟩ := List.mem_flatMap.mp h
    obtain ⟨r, hrr, rfl⟩ := List.mem_map.mp hr
    obtain ⟨hcc, hcp⟩ := List.mem_filter.mp hc
    obtain ⟨hnf, hmatch⟩ := Bool.and_eq_true_iff.mp hcp
    exact Or.inr ⟨c, r, hcc, by simpa using hnf, hmatch, hrr, rfl⟩

/-- Witness for C7 at a concrete one-folder input. -/
theorem buildTree_level_structure_witness :
    let f1 : Collection :=
      { id := "f1", name := "F", parent_id := none, is_folder := true, created_at := "" }
    let r1 : Request :=
      { id := "r1", collection_id := "f1", name := "Login", method := "GET",
        url := "https://x/login", headers := "[]", body := "", body_type := "none",
        auth_type := "none", auth_data := "\x7b\x7d", created_at := "", updated_at := "" }
    let reqs : String → List Request := fun k => if k = "f1" then [r1] else []
    let n0 : TreeNode := folderNode f1 [requestLeaf r1]
    (∃ f, f ∈ [f1] ∧ f.is_folder = true ∧ matchesParent f.parent_id none = true ∧
      n0 = folderNode f (buildTree [f1] reqs 0 (some f.id) ++ (reqs f.id).map requestLeaf)) ∨
    (∃ c r, c ∈ [f1] ∧ c.is_folder = false ∧ matchesParent c.parent_id none = true ∧
      r ∈ reqs c.id ∧ n0 = requestLeaf r) := by
  intro f1 r1 reqs n0
  exact (buildTree_level_structure [f1] reqs 0 none).2.2 n0
    (by rw [show buildTree [f1] reqs 1 none = [n0] from rfl]; exact List.mem_singleton_self n0)

/-- Strings with equal character data are equal. -/
theorem strDataInj {s t : String} (h : s.data = t.data) : s = t := by
  cases s
  cases t
  exact congrArg String.mk h

/-- Strings differing at one position differ. -/
theorem strNeAt {s t : String} (i : Nat) (h : s.data[i]? ≠ t.data[i]?) : s ≠ t := by
  intro he
  exact h (by rw [he])

/-- A split at a separator absent from both left parts is unique. -/
theorem splitAtSepUnique {c : Char} :
    ∀ {a₁ : List Char} {a₂ b₁ b₂ : List Char}, c ∉ a₁ → c ∉ a₂ →
      a₁ ++ c :: b₁ = a₂ ++ c :: b₂ → a₁ = a₂ ∧ b₁ = b₂ := by
  intro a₁
  induction a₁ with
  | nil =>
    intro a₂ b₁ b₂ h1 h2 heq
    cases a₂ with
    | nil => simpa using heq
    | cons y ys =>
      rw [List.nil_append, List.cons_append] at heq
      obtain ⟨rfl, -⟩ := List.cons.inj heq
      exact absurd (List.mem_cons_self _ _) h2
  | cons x xs ih =>
    intro a₂ b₁ b₂ h1 h2 heq
    cases a₂ with
    | nil =>
      rw [List.cons_append, List.nil_append] at heq
      obtain ⟨rfl, -⟩ := List.cons.inj heq
      exact absurd (List.mem_cons_self _ _) h1
    | cons y ys =>
      rw [List.cons_append, List.cons_append] at heq
      obtain ⟨rfl, htail⟩ := List.cons.inj heq
      have h1' : c ∉ xs := fun hm => h1 (List.mem_cons_of_mem _ hm)
      have h2' : c ∉ ys := fun hm => h2 (List.mem_cons_of_mem _ hm)
      obtain ⟨he, hb⟩ := ih h1' h2' htail
      exact ⟨by rw [he], hb⟩

/-- A header-shaped flag whose key does not lower-case to content-type
is never the auto-injected content-type flag. -/
theorem hFlagGen_ne_ct (k v : String) (hk : lowerStr k ≠ "content-type") :
    ("-H \x27" ++ k ++ ": " ++ v ++ "\x27") ≠ ctFlag := by
  intro he
  rw [show ctFlag = "-H \x27" ++ "Content-Type" ++ ": " ++ "application/json" ++ "\x27" from rfl]
    at he
  have hd := congrArg String.data he
  simp only [String.data_append] at hd
  have hd₁ := List.append_cancel_right hd
  rw [List.append_assoc, List.append_assoc, List.append_assoc, List.append_assoc] at hd₁
  have hd₂ := List.append_cancel_left hd₁
  rw [show (": ".data ++ v.data) = ':' :: (' ' :: v.data) from rfl,
    show (": ".data ++ "application/json".data) =
      ':' :: (' ' :: "application/json".data) from rfl] at hd₂
  have hcount := congrArg (List.count ':') hd₂
  simp [List.count_append, List.count_cons] at hcount
  have hkfree : ':' ∉ k.data := by
    apply List.count_eq_zero.mp
    omega
  have hsplit := splitAtSepUnique hkfree (by decide : ':' ∉ "Content-Type".data) hd₂
  have hkeq : k = "Content-Type" := strDataInj hsplit.1
  rw [hkeq] at hk
  exact hk (by decide)

/-- A method flag is never the content-type flag. -/
theorem xPart_ne_ct (m : String) : ("-X " ++ m) ≠ ctFlag := by
  apply strNeAt 1
  have h1 : ("-X " ++ m).data[1]? = some 'X' := by
    simp only [String.data_append]
    rfl
  have h2 : ctFlag.data[1]? = some 'H' := by decide
  rw [h1, h2]
  decide

/-- A basic-auth flag is never the content-type flag. -/
theorem uPart_ne_ct (x y : String) : ("-u \x27" ++ x ++ ":" ++ y ++ "\x27") ≠ ctFlag := by
  apply strNeAt 1
  have h1 : ("-u \x27" ++ x ++ ":" ++ y ++ "\x27").data[1]? = some 'u' := by
    simp only [String.data_append]
    rfl
  have h2 : ctFlag.data[1]? = some 'H' := by decide
  rw [h1, h2]
  decide

/-- A bearer flag is never the content-type flag. -/
theorem bearerPart_ne_ct (x : String) :
    ("-H \x27Authorization: Bearer " ++ x ++ "\x27") ≠ ctFlag := by
  apply strNeAt 4
  have h1 : ("-H \x27Authorization: Bearer " ++ x ++ "\x27").data[4]? = some 'A' := by
    simp only [String.data_append]
    rfl
  have h2 : ctFlag.data[4]? = some 'C' := by decide
  rw [h1, h2]
  decide

/-- A body flag is never the content-type flag. -/
theorem dPart_ne_ct (x : String) : ("-d \x27" ++ x ++ "\x27") ≠ ctFlag := by
  apply strNeAt 1
  have h1 : ("-d \x27" ++ x ++ "\x27").data[1]? = some 'd' := by
    simp only [String.data_append]
    rfl
  have h2 : ctFlag.data[1]? = some 'H' := by decide
  rw [h1, h2]
  decide

/-- The quoted url is never the content-type flag. -/
theorem urlPart_ne_ct (x : String) : ("\x27" ++ x ++ "\x27") ≠ ctFlag := by
  apply strNeAt 0
  have h1 : ("\x27" ++ x ++ "\x27").data[0]? = some '\x27' := by
    simp [String.data_append]
  have h2 : ctFlag.data[0]? = some '-' := by decide
  rw [h1, h2]
  decide

/-- Claim C8 (amended): for a draft with body_type json, a non-empty
body, no header whose key lower-cases to content-type, and an auth
configuration that does not itself inject a content-type header, the
generated command contains the auto-injected content-type flag exactly
once; and a manually added enabled content-type header suppresses the
auto-injection (the body segment emits only the data flag, so no
duplicate content-type flag comes from the generator). -/
theorem generateCurl_ct_once (r : HttpRequest)
    (hbt : r.body_type = "json") (hb : r.body ≠ "") :
    ((∀ h ∈ r.headers, lowerStr h.key ≠ "content-type") →
      (r.auth_type = "apikey" → lowerStr (r.auth_data.key.getD "") ≠ "content-type") →
      (curlParts r).count ctFlag = 1) ∧
    ((enabledHeadersOf r).any (fun h => lowerStr h.key == "content-type") = true →
      curlBodyParts r = ["-d \x27" ++ escBody r.body ++ "\x27"]) := by
  have hbt' : r.body_type ≠ "none" := by rw [hbt]; decide
  constructor
  · intro hnoct hauth
    have h0 : (["curl"] : List String).count ctFlag = 0 := by decide
    have hmp : (curlMethodParts r).count ctFlag = 0 := by
      unfold curlMethodParts
      by_cases hm : r.method ≠ "GET"
      · rw [if_pos hm]
        apply List.count_eq_zero.mpr
        intro hmem
        rw [List.mem_singleton] at hmem
        exact xPart_ne_ct r.method hmem.symm
      · rw [if_neg hm]
        rfl
    have hhp : ((enabledHeadersOf r).map headerFlag).count ctFlag = 0 := by
      apply List.count_eq_zero.mpr
      intro hmem
      obtain ⟨h, hh, he⟩ := List.mem_map.mp hmem
      exact hFlagGen_ne_ct h.key h.value (hnoct h (List.mem_of_mem_filter hh)) he
    have hap : (curlAuthParts r).count ctFlag = 0 := by
      unfold curlAuthParts
      split_ifs with h1 h2 h3
      · apply List.count_eq_zero.mpr
        intro hmem
        rw [List.mem_singleton] at hmem
        exact uPart_ne_ct _ _ hmem.symm
      · apply List.count_eq_zero.mpr
        intro hmem
        rw [List.mem_singleton] at hmem
        exact bearerPart_ne_ct _ hmem.symm
      · apply List.count_eq_zero.mpr
        intro hmem
        rw [List.mem_singleton] at hmem
        exact hFlagGen_ne_ct _ _ (hauth h3.1) hmem.symm
      · rfl
    have hctf : (enabledHeadersOf r).any (fun h => lowerStr h.key == "content-type") = false := by
      rw [List.any_eq_false]
      intro h hh
      simp [hnoct h (List.mem_of_mem_filter hh)]
    have hbp : (curlBodyParts r).count ctFlag = 1 := by
      unfold curlBodyParts
      rw [if_pos ⟨hb, hbt'⟩, hctf]
      rw [if_pos ⟨by decide, hbt⟩]
      have hd0 : (("-d \x27" ++ escBody r.body ++ "\x27") == ctFlag) = false :=
        beq_eq_false_iff_ne.mpr (dPart_ne_ct (escBody r.body))
      simp [List.count_cons, hd0]
    have hup : (["\x27" ++ r.url ++ "\x27"] : List String).count ctFlag = 0 := by
      apply List.count_eq_zero.mpr
      intro hmem
      rw [List.mem_singleton] at hmem
      exact urlPart_ne_ct r.url hmem.symm
    unfold curlParts
    simp only [List.count_append, h0, hmp, hhp, hap, hbp, hup]
  · intro hct
    unfold curlBodyParts
    rw [if_pos ⟨hb, hbt'⟩, hct]
    rw [if_neg (by simp)]
    rfl

/-- Counterexample to claim C8 as stated: a draft with body_type json
and no content-type header but an empty body emits no content-type flag
at all (zero occurrences, not one). -/
theorem generateCurl_ct_once_cex :
    let rex : HttpRequest := { defaultRequest with body_type := "json" }
    (∀ h ∈ rex.headers, lowerStr h.key ≠ "content-type") ∧
      (curlParts rex).count ctFlag = 0 ∧
      generateCurl rex = "curl \\\n  \x27\x27" := by
  decide

/-- Witness for C8 at a concrete json draft with a body and no
content-type header. -/
theorem generateCurl_ct_once_witness :
    let rex : HttpRequest :=
      { method := "POST", url := "https://x", headers := [],
        body := "\x7b\x7d", body_type := "json", auth_type := "none",
        auth_data := {}, form_data := [] }
    (curlParts rex).count ctFlag = 1 := by
  intro rex
  exact (generateCurl_ct_once rex rfl (by decide)).1
    (by intro h hh; exact absurd hh (List.not_mem_nil h))
    (by intro h; exact absurd h (by decide))
